import Mathlib

/-!
Verification development for the pgbun PostgreSQL connection pooler.

The wire codec (`src/protocol.ts`), the pool manager (`src/connection-pool.ts`)
and the client-connection handler (`src/connection-handler.ts`) are embedded
shallowly.  Byte buffers are lists of natural numbers (one entry per byte);
protocol strings are kept as byte sequences, whose `length` is the byte count.
Fallible buffer reads (Node's `readUInt32BE` and friends throw on
out-of-range offsets) are modelled with `Except String`.

The parsing loops of the codec advance an offset into a fixed buffer and only
ever read at positions at or beyond the current offset, so they are embedded
structurally on the remaining suffix of the buffer; a fuel argument bounds the
iteration count (each iteration consumes at least one byte, so a fuel of
`length + 1` is never exhausted).
-/

namespace Pgbun

/-- Byte buffers: one natural number per byte. -/
abbrev Bytes := List Nat

/-- ASCII byte sequence of a Lean string literal (used for the protocol's
ASCII constants such as message texts and parameter names). -/
def strBytes (s : String) : Bytes := s.data.map Char.toNat

/-- Big-endian 4-byte encoding of a 32-bit value, as written by
`Buffer.writeUInt32BE`. -/
def be32Bytes (n : Nat) : Bytes :=
  [n / 16777216 % 256, n / 65536 % 256, n / 256 % 256, n % 256]

/-- Value of the four bytes at offset `i`, big-endian (total function; used
where the source's reads are guarded to be in range). -/
def be32At (b : Bytes) (i : Nat) : Nat :=
  b.getD i 0 * 16777216 + b.getD (i + 1) 0 * 65536 + b.getD (i + 2) 0 * 256 +
    b.getD (i + 3) 0

/-- Bytes of a NUL-terminated string starting at the head of the remaining
buffer: `readCString` collects bytes until a zero byte or the end. -/
def takeCString (b : Bytes) : Bytes := b.takeWhile (fun x => x ≠ 0)

/-- Interpretation of 4 bytes as a signed 32-bit integer (`readInt32BE`). -/
def toInt32 (n : Nat) : Int :=
  if n < 2147483648 then (n : Int) else (n : Int) - 4294967296

/-- Interpretation of 2 bytes as a signed 16-bit integer (`readInt16BE`). -/
def toInt16 (n : Nat) : Int :=
  if n < 32768 then (n : Int) else (n : Int) - 65536

/-- The error produced when a buffer read runs past the end of the buffer
(Node throws `ERR_OUT_OF_RANGE`). -/
def outOfRange : String := "out of range"

/-- Transaction-control classification attached to parsed frames. -/
inductive TxnType where
  | tbegin
  | tcommit
  | trollback
deriving DecidableEq, Repr

/-- Byte is ASCII whitespace (space, tab, LF, VT, FF, CR). -/
def isWsByte (b : Nat) : Bool := b = 32 || b = 9 || b = 10 || b = 11 || b = 12 || b = 13

/-- First whitespace-trimmed token of a byte string. -/
def firstToken (s : Bytes) : Bytes :=
  (s.dropWhile isWsByte).takeWhile (fun b => !isWsByte b)

/-- ASCII upper-casing of one byte. -/
def upperByte (b : Nat) : Nat := if 97 ≤ b ∧ b ≤ 122 then b - 32 else b

/-- ASCII upper-casing of a byte string. -/
def asciiUpper (s : Bytes) : Bytes := s.map upperByte

/-- Modelled from the spec: the current `protocol.ts` (absent from the source
tree; only its callers and unit tests survive) classifies the first
whitespace-trimmed token of a `Query`'s SQL case-insensitively:
BEGIN/START give `begin`, COMMIT/END give `commit`, ROLLBACK/ABORT give
`rollback`, anything else gives no classification. -/
def detectTransactionType (sql : Bytes) : Option TxnType :=
  let t := asciiUpper (firstToken sql)
  if t = strBytes "BEGIN" ∨ t = strBytes "START" then some TxnType.tbegin
  else if t = strBytes "COMMIT" ∨ t = strBytes "END" then some TxnType.tcommit
  else if t = strBytes "ROLLBACK" ∨ t = strBytes "ABORT" then some TxnType.trollback
  else none

/-- Modelled from the spec: the current `protocol.ts` classifies a server
`CommandComplete` tag similarly, but only the outcomes COMMIT and ROLLBACK. -/
def detectCommandCompleteTxn (tag : Bytes) : Option TxnType :=
  let t := asciiUpper (firstToken tag)
  if t = strBytes "COMMIT" then some TxnType.tcommit
  else if t = strBytes "ROLLBACK" then some TxnType.trollback
  else none

/-- One field of a `RowDescription` frame. -/
structure FieldDesc where
  name : Bytes
  tableOid : Nat
  columnNumber : Nat
  typeOid : Nat
  typeSize : Int
  typeModifier : Int
  formatCode : Int
deriving DecidableEq, Repr

/-- The tagged union of frames the codec recognizes (`PostgreSQLMessage`).
The `data` payloads of the TypeScript objects become constructor fields. -/
inductive PgMessage where
  | authenticationOk
  | authenticationRequired (authType : Nat)
  | errorResponse (severity code message : Option Bytes) (fields : List (Nat × Bytes))
  | readyForQuery (status : Nat)
  | rowDescription (fields : List FieldDesc)
  | dataRow (fields : List (Option Bytes))
  | commandComplete (tag : Bytes) (transactionType : Option TxnType)
  | startup (params : List (Bytes × Bytes))
  | query (sql : Bytes) (transactionType : Option TxnType)
  | terminate
deriving DecidableEq, Repr

/-- JS record assignment `m[k] = v`: replaces the value of an existing key in
place, otherwise appends (insertion order preserved). -/
def recordSet (m : List (Bytes × Bytes)) (k v : Bytes) : List (Bytes × Bytes) :=
  match m with
  | [] => [(k, v)]
  | (k0, v0) :: tl => if k0 = k then (k0, v) :: tl else (k0, v0) :: recordSet tl k v

/-- JS record assignment for byte-keyed records (error-response fields). -/
def recordSetN (m : List (Nat × Bytes)) (k : Nat) (v : Bytes) : List (Nat × Bytes) :=
  match m with
  | [] => [(k, v)]
  | (k0, v0) :: tl => if k0 = k then (k0, v) :: tl else (k0, v0) :: recordSetN tl k v

/-- Lookup in a byte-keyed record (`fields.S`, `fields.C`, `fields.M`). -/
def lookupN (m : List (Nat × Bytes)) (k : Nat) : Option Bytes :=
  match m with
  | [] => none
  | (k0, v0) :: tl => if k0 = k then some v0 else lookupN tl k

/-- Lookup in a string-keyed record (startup parameters). -/
def recLookup (m : List (Bytes × Bytes)) (k : Bytes) : Option Bytes :=
  match m with
  | [] => none
  | (k0, v0) :: tl => if k0 = k then some v0 else recLookup tl k

/-- Field loop of `parseErrorResponse`, on the remaining suffix of the
payload: while more than one byte remains, read a field-type byte (a zero
byte stops the loop), then a NUL-terminated value, and record the pair.
`fuel` bounds the iterations and is never exhausted at `length + 1`. -/
def errLoopF : Nat → Bytes → List (Nat × Bytes) → List (Nat × Bytes)
  | 0, _, fields => fields
  | fuel + 1, rem, fields =>
    if 1 < rem.length then
      match rem with
      | [] => fields
      | ft :: rem1 =>
        if ft = 0 then fields
        else
          let value := takeCString rem1
          errLoopF fuel (rem1.drop (value.length + 1)) (recordSetN fields ft value)
    else fields

/-- `parseErrorResponse`: collect field-code/value pairs, then expose the
severity (`S`), code (`C`) and message (`M`) fields. -/
def parseErrorResponse (buffer : Bytes) : PgMessage :=
  let fields := errLoopF (buffer.length + 1) buffer []
  PgMessage.errorResponse (lookupN fields 83) (lookupN fields 67) (lookupN fields 77) fields

/-- Reads `n` bytes big-endian from the front of the buffer, returning the
value and the rest; errors when fewer than `n` bytes remain (as the source's
`readUIntBE`-family reads do). -/
def readBE : Nat → Bytes → Except String (Nat × Bytes)
  | 0, rest => Except.ok (0, rest)
  | _ + 1, [] => Except.error outOfRange
  | n + 1, b :: rest => do
    let (v, r) ← readBE n rest
    Except.ok (b * 256 ^ n + v, r)

/-- Per-field loop of `parseRowDescription`: a NUL-terminated name followed by
six fixed-width integers (4+2+4+2+4+2 bytes). -/
def rowDescFields : Nat → Bytes → Except String (List FieldDesc)
  | 0, _ => Except.ok []
  | n + 1, rem => do
    let name := takeCString rem
    let rem := rem.drop (name.length + 1)
    let (tableOid, rem) ← readBE 4 rem
    let (columnNumber, rem) ← readBE 2 rem
    let (typeOid, rem) ← readBE 4 rem
    let (typeSize, rem) ← readBE 2 rem
    let (typeModifier, rem) ← readBE 4 rem
    let (formatCode, rem) ← readBE 2 rem
    let tl ← rowDescFields n rem
    Except.ok ({ name := name, tableOid := tableOid, columnNumber := columnNumber,
                 typeOid := typeOid, typeSize := toInt16 typeSize,
                 typeModifier := toInt32 typeModifier,
                 formatCode := toInt16 formatCode } :: tl)

/-- `parseRowDescription`: 2-byte field count, then the fields. -/
def parseRowDescription (buffer : Bytes) : Except String PgMessage := do
  let (fieldCount, rest) ← readBE 2 buffer
  let fields ← rowDescFields fieldCount rest
  Except.ok (PgMessage.rowDescription fields)

/-- JS `Buffer.slice(start, end)` with possibly negative indexes (negative
values count from the end; an empty slice results when `end ≤ start`). -/
def intSlice (l : Bytes) (a b : Int) : Bytes :=
  let len : Int := l.length
  let s := if a < 0 then max (len + a) 0 else min a len
  let e := if b < 0 then max (len + b) 0 else min b len
  if s < e then (l.drop s.toNat).take (e - s).toNat else []

/-- Reads `readInt32BE` of `buffer` at a (signed) offset, erroring outside
`[0, length - 4]`. -/
def readInt32At (buffer : Bytes) (off : Int) : Except String Int :=
  if 0 ≤ off ∧ off + 4 ≤ (buffer.length : Int) then
    Except.ok (toInt32 (be32At buffer off.toNat))
  else Except.error outOfRange

/-- Per-field loop of `parseDataRow`: a signed 4-byte length, `-1` marking a
NULL field, otherwise that many bytes of field data (the source's offset is
`Int`-valued once a negative length has been consumed). -/
def dataRowFields (buffer : Bytes) : Nat → Int → Except String (List (Option Bytes))
  | 0, _ => Except.ok []
  | n + 1, off => do
    let fieldLength ← readInt32At buffer off
    if fieldLength = -1 then do
      let tl ← dataRowFields buffer n (off + 4)
      Except.ok (none :: tl)
    else do
      let fieldData := intSlice buffer (off + 4) (off + 4 + fieldLength)
      let tl ← dataRowFields buffer n (off + 4 + fieldLength)
      Except.ok (some fieldData :: tl)

/-- `parseDataRow`: 2-byte field count, then the fields starting at offset 2. -/
def parseDataRow (buffer : Bytes) : Except String PgMessage := do
  let (fieldCount, _) ← readBE 2 buffer
  let fields ← dataRowFields buffer fieldCount 2
  Except.ok (PgMessage.dataRow fields)

/-- `parseQuery`: NUL-terminated SQL text, with the transaction-verb
classification of the current `protocol.ts` (see `detectTransactionType`). -/
def parseQuery (buffer : Bytes) : PgMessage :=
  let sql := takeCString buffer
  PgMessage.query sql (detectTransactionType sql)

/-- Dispatch on one server frame's tag byte (`parseServerMessage`'s switch).
`tail` is the buffer from offset+5 on (the `R` and `Z` cases read there, past
the end of short frames), `messageData` the payload slice.  Unknown tags are
logged and produce nothing. -/
def serverFrame (t : Nat) (tail messageData : Bytes) : Except String (List PgMessage) :=
  if t = 82 then
    match tail with
    | a0 :: a1 :: a2 :: a3 :: _ =>
      let authType := a0 * 16777216 + a1 * 65536 + a2 * 256 + a3
      if authType = 0 then Except.ok [PgMessage.authenticationOk]
      else Except.ok [PgMessage.authenticationRequired authType]
    | _ => Except.error outOfRange
  else if t = 69 then Except.ok [parseErrorResponse messageData]
  else if t = 90 then Except.ok [PgMessage.readyForQuery (tail.getD 0 0)]
  else if t = 84 then do
    let m ← parseRowDescription messageData
    Except.ok [m]
  else if t = 68 then do
    let m ← parseDataRow messageData
    Except.ok [m]
  else if t = 67 then
    let tag := takeCString messageData
    Except.ok [PgMessage.commandComplete tag (detectCommandCompleteTxn tag)]
  else Except.ok []

/-- Frame loop of `parseServerMessage`, on the remaining suffix of the input:
read the tag byte and the 4-byte length (erroring when fewer than 5 bytes
remain, as `readUInt32BE` throws); stop with what has been parsed when the
declared length is not fully present; otherwise dispatch on the tag and
advance by `length + 1` bytes.  Each iteration consumes at least one byte,
so a fuel of `length + 1` is never exhausted. -/
def serverLoopF : Nat → Bytes → Except String (List PgMessage)
  | 0, _ => Except.ok []
  | fuel + 1, rem =>
    match rem with
    | [] => Except.ok []
    | t :: rest =>
      match rest with
      | b0 :: b1 :: b2 :: b3 :: tail =>
        let messageLength := b0 * 16777216 + b1 * 65536 + b2 * 256 + b3
        if rest.length < messageLength then Except.ok []
        else do
          let messageData := tail.take (messageLength - 4)
          let msgs ← serverFrame t tail messageData
          let more ← serverLoopF fuel (rest.drop messageLength)
          Except.ok (msgs ++ more)
      | _ => Except.error outOfRange

/-- `parseServerMessage`. -/
def parseServerMessage (buffer : Bytes) : Except String (List PgMessage) :=
  serverLoopF (buffer.length + 1) buffer

/-- Parameter loop of `parseStartupMessage`, on the remaining suffix (the
loop runs while the absolute offset is below `length - 1`): read a
NUL-terminated key, stop when that consumes the rest, read a NUL-terminated
value, and record the pair when the key is non-empty. -/
def startupLoopF : Nat → Bytes → List (Bytes × Bytes) → List (Bytes × Bytes)
  | 0, _, params => params
  | fuel + 1, rem, params =>
    if 1 < rem.length then
      let key := takeCString rem
      let rem1 := rem.drop (key.length + 1)
      if rem1 = [] then params
      else
        let value := takeCString rem1
        startupLoopF fuel (rem1.drop (value.length + 1))
          (if key ≠ [] then recordSet params key value else params)
    else params

/-- `parseStartupMessage`: parameters start at offset 8 (after the length and
protocol-version words). -/
def parseStartupMessage (buffer : Bytes) : PgMessage :=
  PgMessage.startup (startupLoopF (buffer.length + 1) (buffer.drop 8) [])

/-- Dispatch on one client frame's tag byte (`parseClientMessage`'s switch):
`Q` is a query, `X` a terminate, anything else is logged and skipped. -/
def clientFrame (t : Nat) (messageData : Bytes) : List PgMessage :=
  if t = 81 then [parseQuery messageData]
  else if t = 88 then [PgMessage.terminate]
  else []

/-- Frame loop of `parseClientMessage` for tagged frames, on the remaining
suffix; framing identical to `serverLoopF`. -/
def clientLoopF : Nat → Bytes → Except String (List PgMessage)
  | 0, _ => Except.ok []
  | fuel + 1, rem =>
    match rem with
    | [] => Except.ok []
    | t :: rest =>
      match rest with
      | b0 :: b1 :: b2 :: b3 :: tail =>
        let messageLength := b0 * 16777216 + b1 * 65536 + b2 * 256 + b3
        if rest.length < messageLength then Except.ok []
        else do
          let messageData := tail.take (messageLength - 4)
          let more ← clientLoopF fuel (rest.drop messageLength)
          Except.ok (clientFrame t messageData ++ more)
      | _ => Except.error outOfRange

/-- The tagged-frame parse of a client buffer (the loop of
`parseClientMessage` once the startup special case has not fired; that check
only applies at offset 0, so the whole buffer is handed to the loop). -/
def parseTagged (buffer : Bytes) : Except String (List PgMessage) :=
  clientLoopF (buffer.length + 1) buffer

/-- Condition under which `parseClientMessage` treats the buffer as a startup
frame: at offset 0, at least 8 bytes, the leading big-endian word equal to
the whole buffer's length, and the next word equal to `0x00030000`. -/
def startupCond (buffer : Bytes) : Prop :=
  8 ≤ buffer.length ∧ be32At buffer 0 = buffer.length ∧ be32At buffer 4 = 196608

instance (buffer : Bytes) : Decidable (startupCond buffer) := by
  unfold startupCond; infer_instance

/-- `parseClientMessage`: the startup check fires only at offset 0; otherwise
the buffer is parsed as a stream of tagged frames. -/
def parseClientMessage (buffer : Bytes) : Except String (List PgMessage) :=
  if startupCond buffer then Except.ok [parseStartupMessage buffer]
  else parseTagged buffer

/-! Emitters (`create*` methods of `PostgreSQLProtocol`).  `Buffer.alloc`
plus a sequence of `write*` calls is rendered as direct byte-list
construction in write order. -/

/-- `createAuthenticationOk`: tag `R`, length 8, auth code 0. -/
def createAuthenticationOk : Bytes := 82 :: be32Bytes 8 ++ be32Bytes 0

/-- `createReadyForQuery`: tag `Z`, length 5, one status byte
(default `'I'` = 73). -/
def createReadyForQuery (status : Nat := 73) : Bytes := 90 :: be32Bytes 5 ++ [status]

/-- `createCommandComplete`: tag `C`, the NUL-terminated tag string. -/
def createCommandComplete (tag : Bytes) : Bytes :=
  67 :: be32Bytes (4 + (tag.length + 1)) ++ tag ++ [0]

/-- `createErrorResponse`: tag `E` with fields `SFATAL`, `C08006`, `M` plus
the message, each NUL-terminated, then a terminating NUL. -/
def createErrorResponse (message : Bytes) : Bytes :=
  let severity := 83 :: strBytes "FATAL" ++ [0]
  let code := 67 :: strBytes "08006" ++ [0]
  let msg := 77 :: message ++ [0]
  let totalLength := severity.length + code.length + msg.length + 1
  69 :: be32Bytes (4 + totalLength) ++ severity ++ code ++ msg ++ [0]

/-- Flattened `key\0value\0` parameter section of a startup message. -/
def flatParams (params : List (Bytes × Bytes)) : Bytes :=
  params.foldr (fun p acc => p.1 ++ [0] ++ p.2 ++ [0] ++ acc) []

/-- `createStartupMessage`: length word (covering itself), protocol version
`0x00030000`, the parameters, a trailing NUL. -/
def createStartupMessage (params : List (Bytes × Bytes)) : Bytes :=
  let totalLength := 4 + 4 + (flatParams params).length + 1
  be32Bytes totalLength ++ be32Bytes 196608 ++ flatParams params ++ [0]

/-- `createSSLRequestMessage`: length 8 and the SSLRequest code 80877103. -/
def createSSLRequestMessage : Bytes := be32Bytes 8 ++ be32Bytes 80877103

/-- `isSSLRequest`: exactly 8 bytes whose two words are 8 and 80877103 (the
source reads them with `readInt32BE`; both constants are below 2^31, so the
unsigned reading coincides). -/
def isSSLRequest (buffer : Bytes) : Bool :=
  buffer.length = 8 && be32At buffer 0 = 8 && be32At buffer 4 = 80877103

/-- `createQueryMessage`: tag `Q`, length covering the NUL-terminated SQL. -/
def createQueryMessage (sql : Bytes) : Bytes :=
  81 :: be32Bytes (4 + (sql.length + 1)) ++ sql ++ [0]

/-! Pool manager (`src/connection-pool.ts`).  Timestamps (`createdAt`,
`lastUsed`) and the socket handle play no role in the verified claims and are
omitted; connections are identified by `id`.  Whether opening a brand-new
backend succeeds (network + authentication) is an environment bit
`createSucceeds` of the pool. -/

/-- The pool mode (`pool_mode` configuration value). -/
inductive PoolMode where
  | session
  | transaction
  | statement
deriving DecidableEq, Repr

/-- A backend connection (`ServerConnection`). -/
structure ServerConn where
  id : Nat
  database : Bytes
  user : Bytes
  inUse : Bool
  authenticated : Bool
deriving DecidableEq, Repr

/-- Pool state: the flattened per-key lists (`pools`), the session-pin map
(`sessionTrackedConnections`, keyed by session id and pool key), the global
counter and cap, plus the id for the next created backend and the
environment bit for backend creation. -/
structure Pool where
  conns : List ServerConn
  sessionTracked : List ((Nat × Bytes × Bytes) × Nat)
  totalConnections : Nat
  maxClientConnections : Nat
  nextId : Nat
  createSucceeds : Bool
deriving DecidableEq, Repr

/-- Pool-key match: the source keys pools by the string `database:user`. -/
def connMatches (c : ServerConn) (database user : Bytes) : Bool :=
  c.database = database && c.user = user

/-- Marks the connection with the given id as in use. -/
def markInUse (conns : List ServerConn) (cid : Nat) : List ServerConn :=
  conns.map fun c => if c.id = cid then { c with inUse := true } else c

/-- Marks the connection with the given id as idle. -/
def markIdle (conns : List ServerConn) (cid : Nat) : List ServerConn :=
  conns.map fun c => if c.id = cid then { c with inUse := false } else c

/-- Session-pin lookup (`sessionTrackedConnections.get(sessionKey)`). -/
def trackedLookup (p : Pool) (sid : Nat) (database user : Bytes) : Option Nat :=
  (p.sessionTracked.find? fun e => e.1 = (sid, database, user)).map Prod.snd

/-- `getConnection(sessionId, database, user)`: in session mode first try the
session-pinned backend; else the first idle backend of the key's pool; else
create a new backend when below the global cap (recording the pin in session
mode); finally mark the chosen backend in use. -/
def getConnection (p : Pool) (mode : PoolMode) (sessionId : Option Nat)
    (database user : Bytes) : Option ServerConn × Pool :=
  let pinned : Option ServerConn :=
    match mode, sessionId with
    | PoolMode.session, some sid =>
      match trackedLookup p sid database user with
      | some cid =>
        match p.conns.find? fun c => c.id = cid with
        | some c => if c.inUse then none else some c
        | none => none
      | none => none
    | _, _ => none
  match pinned with
  | some c =>
    (some { c with inUse := true }, { p with conns := markInUse p.conns c.id })
  | none =>
    match p.conns.find? fun c => connMatches c database user && !c.inUse with
    | some c =>
      (some { c with inUse := true }, { p with conns := markInUse p.conns c.id })
    | none =>
      if p.totalConnections < p.maxClientConnections then
        if p.createSucceeds then
          let c : ServerConn :=
            { id := p.nextId, database := database, user := user,
              inUse := true, authenticated := true }
          let tracked :=
            match mode, sessionId with
            | PoolMode.session, some sid =>
              ((sid, database, user), c.id) :: p.sessionTracked
            | _, _ => p.sessionTracked
          (some c,
           { p with conns := p.conns ++ [c], sessionTracked := tracked,
                    totalConnections := p.totalConnections + 1,
                    nextId := p.nextId + 1 })
        else (none, p)
      else (none, p)

/-- `releaseConnection(connection?, sessionId?)`: a missing connection is a
no-op; otherwise mark it idle and, in session mode with a session id, drop a
matching session pin. -/
def releaseConnection (p : Pool) (mode : PoolMode) (copt : Option Nat)
    (sessionId : Option Nat) : Pool :=
  match copt with
  | none => p
  | some cid =>
    let p1 := { p with conns := markIdle p.conns cid }
    match mode, sessionId, p.conns.find? fun c => c.id = cid with
    | PoolMode.session, some sid, some c =>
      { p1 with sessionTracked :=
          p1.sessionTracked.filter fun e => ¬(e.1 = (sid, c.database, c.user) ∧ e.2 = cid) }
    | _, _, _ => p1

/-! Client-connection handler (`src/connection-handler.ts`).  Socket writes,
socket closes and the TLS upgrade become explicit actions; timers and the
idle sweeps are time-based and not modelled. -/

/-- Client TLS mode (`client_tls_mode`). -/
inductive TlsMode where
  | disable
  | allow
  | prefer
  | require
  | verifyCa
  | verifyFull
deriving DecidableEq, Repr

/-- The slice of `Config` the handler logic reads. -/
structure Config where
  poolMode : PoolMode
  clientTlsMode : TlsMode
  clientTlsKeyFile : Option String
  clientTlsCertFile : Option String
  clientTlsCaFile : Option String
deriving DecidableEq, Repr

/-- Session state (`ClientSession.state`). -/
inductive SessState where
  | snew
  | authenticating
  | active
deriving DecidableEq, Repr

/-- Per-client session state (`ClientSession`); fields without bearing on the
claims (timestamps, the login timer) are omitted. -/
structure ClientSession where
  sessionId : Nat
  database : Bytes
  user : Bytes
  currentServerConnection : Option Nat
  state : SessState
  authenticated : Bool
  pendingRelease : Bool
  inTransaction : Bool
deriving DecidableEq, Repr

/-- Observable effects of a handler step. -/
inductive Action where
  | writeClient (data : Bytes)
  | writeServer (data : Bytes)
  | closeClient
  | upgradeTLS
deriving DecidableEq, Repr

/-- A fresh session as built on accept. -/
def newSession (sid : Nat) : ClientSession :=
  { sessionId := sid, database := [], user := [],
    currentServerConnection := none, state := SessState.snew,
    authenticated := false, pendingRelease := false, inTransaction := false }

/-- JS `x || 'postgres'`: the default replaces a missing key and the empty
string (both falsy). -/
def jsOrBytes (o : Option Bytes) (d : Bytes) : Bytes :=
  match o with
  | none => d
  | some v => if v = [] then d else v

/-- `handleSSLRequest`: reject when TLS is disabled; require configured key
and cert files, and a CA file in the verify modes; on acceptance write `'S'`,
upgrade the socket and move to `authenticating`. -/
def handleSSLRequest (cfg : Config) (s : ClientSession) :
    ClientSession × List Action :=
  if cfg.clientTlsMode = TlsMode.disable then
    (s, [Action.writeClient (strBytes "N"), Action.closeClient])
  else if cfg.clientTlsKeyFile.isSome ∧ cfg.clientTlsCertFile.isSome then
    if (cfg.clientTlsMode = TlsMode.verifyCa ∨ cfg.clientTlsMode = TlsMode.verifyFull) ∧
        cfg.clientTlsCaFile.isNone then
      (s, [Action.closeClient])
    else
      ({ s with state := SessState.authenticating },
       [Action.writeClient (strBytes "S"), Action.upgradeTLS])
  else (s, [Action.closeClient])

/-- `handleStartup`: record database and user (defaulting to `postgres`),
enter `authenticating`; in session mode acquire a backend keyed on them (a
missing backend throws, landing in the catch that writes a generic error and
closes); then acknowledge and become `active`. -/
def handleStartup (cfg : Config) (s : ClientSession) (p : Pool)
    (params : List (Bytes × Bytes)) : ClientSession × Pool × List Action :=
  let database := jsOrBytes (recLookup params (strBytes "database")) (strBytes "postgres")
  let user := jsOrBytes (recLookup params (strBytes "user")) (strBytes "postgres")
  let s1 := { s with database := database, user := user,
                     state := SessState.authenticating }
  match cfg.poolMode with
  | PoolMode.session =>
    match getConnection p PoolMode.session (some s.sessionId) database user with
    | (some c, p1) =>
      ({ s1 with currentServerConnection := some c.id, authenticated := true,
                 state := SessState.active },
       p1,
       [Action.writeClient createAuthenticationOk,
        Action.writeClient (createReadyForQuery)])
    | (none, p1) =>
      (s1, p1,
       [Action.writeClient (createErrorResponse (strBytes "Failed to connect to database")),
        Action.closeClient])
  | _ =>
    ({ s1 with authenticated := true, state := SessState.active }, p,
     [Action.writeClient createAuthenticationOk,
      Action.writeClient (createReadyForQuery)])

/-- Tail of `handleQuery` once a backend is present: set the transaction
flags from the query's classification (transaction mode only) and forward
the query to the backend. -/
def handleQueryProceed (cfg : Config) (s : ClientSession) (p : Pool)
    (sql : Bytes) (tt : Option TxnType) : ClientSession × Pool × List Action :=
  let s1 :=
    if tt = some TxnType.tbegin ∧ cfg.poolMode = PoolMode.transaction then
      { s with inTransaction := true }
    else s
  let s2 :=
    if (tt = some TxnType.tcommit ∨ tt = some TxnType.trollback) ∧
        cfg.poolMode = PoolMode.transaction then
      { s1 with pendingRelease := true }
    else s1
  (s2, p, [Action.writeServer (createQueryMessage sql)])

/-- `handleQuery`: without a current backend, transaction mode re-acquires
from the pool (an empty pool answer emits `No available connections` and
returns), other modes emit `No server connection` and return; with a backend
the query is classified and forwarded. -/
def handleQuery (cfg : Config) (s : ClientSession) (p : Pool)
    (sql : Bytes) (tt : Option TxnType) : ClientSession × Pool × List Action :=
  match s.currentServerConnection with
  | none =>
    match cfg.poolMode with
    | PoolMode.transaction =>
      match getConnection p PoolMode.transaction none s.database s.user with
      | (some c, p1) =>
        handleQueryProceed cfg { s with currentServerConnection := some c.id } p1 sql tt
      | (none, p1) =>
        (s, p1, [Action.writeClient (createErrorResponse (strBytes "No available connections"))])
    | _ =>
      (s, p, [Action.writeClient (createErrorResponse (strBytes "No server connection"))])
  | some _ => handleQueryProceed cfg s p sql tt

/-- The frame is a `ReadyForQuery` (the predicate of
`msgs.some(m => m.type === 'ReadyForQuery')`). -/
def isRFQmsg : PgMessage → Bool
  | PgMessage.readyForQuery _ => true
  | _ => false

/-- The server-data callback installed by `setupServerToClientProxy`: parse
the server bytes (a parse failure lands in the catch that ends the client
socket); in transaction mode a `ReadyForQuery` releases the backend when a
release is pending or no transaction is open, clearing both flags when a
release was pending; finally forward the bytes to the client. -/
def serverDataStep (cfg : Config) (s : ClientSession) (p : Pool) (data : Bytes) :
    ClientSession × Pool × List Action :=
  match parseServerMessage data with
  | Except.error _ => (s, p, [Action.closeClient])
  | Except.ok msgs =>
    let hasReadyForQuery := msgs.any isRFQmsg
    if hasReadyForQuery ∧ cfg.poolMode = PoolMode.transaction then
      let (s1, p1) :=
        if s.pendingRelease ∨ ¬s.inTransaction then
          ({ s with currentServerConnection := none },
           releaseConnection p cfg.poolMode s.currentServerConnection none)
        else (s, p)
      let s2 :=
        if s.pendingRelease then
          { s1 with pendingRelease := false, inTransaction := false }
        else s1
      (s2, p1, [Action.writeClient data])
    else (s, p, [Action.writeClient data])

/-- Routing taken by `handleClientData` before any frame parsing. -/
inductive Route where
  | sslPath
  | tlsReject
  | process
deriving DecidableEq, Repr

/-- The branch `handleClientData` takes: in state `new`, an SSLRequest goes
to the SSL path and a plain first frame is rejected when TLS is required;
every other case parses the data as client messages. -/
def dataRoute (cfg : Config) (s : ClientSession) (data : Bytes) : Route :=
  if s.state = SessState.snew then
    if isSSLRequest data then Route.sslPath
    else if cfg.clientTlsMode = TlsMode.require ∨ cfg.clientTlsMode = TlsMode.verifyCa ∨
        cfg.clientTlsMode = TlsMode.verifyFull then Route.tlsReject
    else Route.process
  else Route.process

/-- Dispatch of one parsed client message (`processClientMessage`). -/
def processClientMessage (cfg : Config) (s : ClientSession) (p : Pool) :
    PgMessage → ClientSession × Pool × List Action
  | PgMessage.startup params => handleStartup cfg s p params
  | PgMessage.query sql tt => handleQuery cfg s p sql tt
  | PgMessage.terminate => (s, p, [Action.closeClient])
  | _ => (s, p, [])

/-! Trace semantics for the proxy loop: a session's run interleaves parsed
client queries with chunks of server bytes arriving on its backend socket. -/

/-- One externally visible event of a session's trace. -/
inductive Event where
  | clientQuery (sql : Bytes)
  | serverData (data : Bytes)
deriving DecidableEq, Repr

/-- Session-plus-pool state evolved by a trace. -/
structure World where
  session : ClientSession
  pool : Pool
deriving DecidableEq, Repr

/-- One trace step: a client query goes through `handleQuery` with the
codec's classification (as `parseClientMessage` attaches it); server bytes
go through the proxy callback. -/
def step (cfg : Config) (w : World) : Event → World
  | Event.clientQuery sql =>
    let r := handleQuery cfg w.session w.pool sql (detectTransactionType sql)
    { session := r.1, pool := r.2.1 }
  | Event.serverData data =>
    let r := serverDataStep cfg w.session w.pool data
    { session := r.1, pool := r.2.1 }

/-- A trace is folded left to right. -/
def run (cfg : Config) (w : World) (es : List Event) : World :=
  es.foldl (step cfg) w

/-- The event is a client query the codec classifies as COMMIT or ROLLBACK. -/
def isCommitRollbackEv : Event → Bool
  | Event.clientQuery sql =>
    detectTransactionType sql = some TxnType.tcommit ∨
      detectTransactionType sql = some TxnType.trollback
  | Event.serverData _ => false

/-- The event is server data that parses successfully and contains a
`ReadyForQuery` frame. -/
def isServerRFQEv : Event → Bool
  | Event.clientQuery _ => false
  | Event.serverData data =>
    match parseServerMessage data with
    | Except.error _ => false
    | Except.ok msgs => msgs.any isRFQmsg

/-- Every connection of the pool carrying this id is idle. -/
def connReleased (p : Pool) (cid : Nat) : Prop :=
  ∀ c ∈ p.conns, c.id = cid → c.inUse = false

/-! Codec lemmas. -/

theorem be32_digits (m : Nat) (h : m < 4294967296) :
    m / 16777216 % 256 * 16777216 + m / 65536 % 256 * 65536 + m / 256 % 256 * 256 + m % 256 = m := by
  omega

theorem takeCString_pre (s r : Bytes) (h : ∀ b ∈ s, b ≠ 0) :
    takeCString (s ++ 0 :: r) = s := by
  induction s with
  | nil => simp [takeCString]
  | cons a tl ih =>
    have ha : a ≠ 0 := h a (by simp)
    have htl : ∀ b ∈ tl, b ≠ 0 := fun b hb => h b (by simp [hb])
    simpa [takeCString, List.takeWhile, ha] using ih htl

theorem drop_cstring (s r : Bytes) : (s ++ 0 :: r).drop (s.length + 1) = r := by
  have h : s ++ 0 :: r = (s ++ [0]) ++ r := by simp
  rw [h]
  have hl : (s ++ [0]).length = s.length + 1 := by simp
  rw [← hl, List.drop_left]

theorem serverLoopF_nil (fuel : Nat) : serverLoopF fuel [] = Except.ok [] := by
  cases fuel <;> rfl

theorem clientLoopF_nil (fuel : Nat) : clientLoopF fuel [] = Except.ok [] := by
  cases fuel <;> rfl

theorem serverLoop_single (t m : Nat) (payload : Bytes) (fuel : Nat)
    (hm : m = payload.length + 4) (h32 : m < 4294967296) :
    serverLoopF (fuel + 1) (t :: be32Bytes m ++ payload) = serverFrame t payload payload := by
  have hrec : (be32Bytes m ++ payload).drop m = [] := by
    simp [be32Bytes, hm, List.drop_eq_nil_iff]
  have hlen : (be32Bytes m ++ payload).length = m := by simp [be32Bytes]; omega
  simp only [serverLoopF, be32Bytes, List.cons_append, List.nil_append]
  rw [be32_digits m h32]
  have hnl : ¬ ((be32Bytes m ++ payload).length < m) := by omega
  simp only [be32Bytes, List.cons_append, List.nil_append] at hnl hrec
  rw [if_neg hnl]
  have hmd : payload.take (m - 4) = payload := by
    rw [hm]; simp
  rw [hmd, hrec, serverLoopF_nil]
  cases h : serverFrame t payload payload with
  | error e => rfl
  | ok msgs =>
    show Except.ok (msgs ++ []) = Except.ok msgs
    simp

theorem clientLoop_single (t m : Nat) (payload : Bytes) (fuel : Nat)
    (hm : m = payload.length + 4) (h32 : m < 4294967296) :
    clientLoopF (fuel + 1) (t :: be32Bytes m ++ payload) =
      Except.ok (clientFrame t payload) := by
  have hrec : (be32Bytes m ++ payload).drop m = [] := by
    simp [be32Bytes, hm, List.drop_eq_nil_iff]
  have hlen : (be32Bytes m ++ payload).length = m := by simp [be32Bytes]; omega
  simp only [clientLoopF, be32Bytes, List.cons_append, List.nil_append]
  rw [be32_digits m h32]
  have hnl : ¬ ((be32Bytes m ++ payload).length < m) := by omega
  simp only [be32Bytes, List.cons_append, List.nil_append] at hnl hrec
  rw [if_neg hnl]
  have hmd : payload.take (m - 4) = payload := by
    rw [hm]; simp
  rw [hmd, hrec, clientLoopF_nil]
  show Except.ok (clientFrame t payload ++ []) = Except.ok (clientFrame t payload)
  simp

theorem be32At_be32Bytes (n : Nat) (r : Bytes) (h : n < 4294967296) :
    be32At (be32Bytes n ++ r) 0 = n := by
  simp [be32At, be32Bytes, List.getD_cons_zero, List.getD_cons_succ]
  omega

theorem be32At_cons4 (a b c d : Nat) (r : Bytes) : be32At (a :: b :: c :: d :: r) 4 = be32At r 0 := by
  simp [be32At, List.getD_cons_succ]

theorem be32At_append_left (l r : Bytes) (i : Nat) (h : i + 4 ≤ l.length) :
    be32At (l ++ r) i = be32At l i := by
  unfold be32At
  rw [List.getD_append _ _ _ _ (by omega), List.getD_append _ _ _ _ (by omega),
    List.getD_append _ _ _ _ (by omega), List.getD_append _ _ _ _ (by omega)]

/-- Characterization of the transaction-verb classifier by the six verbs. -/
theorem detect_cases (sql : Bytes) :
    ((detectTransactionType sql = some TxnType.tbegin) ↔
      (asciiUpper (firstToken sql) = strBytes "BEGIN" ∨
        asciiUpper (firstToken sql) = strBytes "START")) ∧
    ((detectTransactionType sql = some TxnType.tcommit) ↔
      (asciiUpper (firstToken sql) = strBytes "COMMIT" ∨
        asciiUpper (firstToken sql) = strBytes "END")) ∧
    ((detectTransactionType sql = some TxnType.trollback) ↔
      (asciiUpper (firstToken sql) = strBytes "ROLLBACK" ∨
        asciiUpper (firstToken sql) = strBytes "ABORT")) ∧
    ((detectTransactionType sql = none) ↔
      ¬(asciiUpper (firstToken sql) = strBytes "BEGIN" ∨
        asciiUpper (firstToken sql) = strBytes "START" ∨
        asciiUpper (firstToken sql) = strBytes "COMMIT" ∨
        asciiUpper (firstToken sql) = strBytes "END" ∨
        asciiUpper (firstToken sql) = strBytes "ROLLBACK" ∨
        asciiUpper (firstToken sql) = strBytes "ABORT")) := by
  have key : ∀ u v : Bytes, asciiUpper (firstToken sql) = u →
      asciiUpper (firstToken sql) = v → u = v := by
    intro u v hu hv
    rw [← hu, hv]
  unfold detectTransactionType
  dsimp only
  by_cases c1 : asciiUpper (firstToken sql) = strBytes "BEGIN" ∨
      asciiUpper (firstToken sql) = strBytes "START" <;>
    by_cases c2 : asciiUpper (firstToken sql) = strBytes "COMMIT" ∨
        asciiUpper (firstToken sql) = strBytes "END" <;>
      by_cases c3 : asciiUpper (firstToken sql) = strBytes "ROLLBACK" ∨
          asciiUpper (firstToken sql) = strBytes "ABORT" <;>
        first
          | (exfalso
             rcases c1 with h | h <;> rcases c2 with g | g <;>
               exact absurd (key _ _ h g) (by decide))
          | (exfalso
             rcases c1 with h | h <;> rcases c3 with g | g <;>
               exact absurd (key _ _ h g) (by decide))
          | (exfalso
             rcases c2 with h | h <;> rcases c3 with g | g <;>
               exact absurd (key _ _ h g) (by decide))
          | (simp only [c1, c2, c3, if_true, if_false, iff_true, iff_false, if_pos, if_neg,
              eq_self_iff_true, not_true, not_false_iff]
             refine ⟨?_, ?_, ?_, ?_⟩ <;> simp [c1, c2, c3])

theorem clientFrame_query (t : Nat) (md sql : Bytes) (tt : Option TxnType)
    (h : PgMessage.query sql tt ∈ clientFrame t md) : tt = detectTransactionType sql := by
  unfold clientFrame at h
  split_ifs at h with h1 h2
  · simp only [parseQuery, List.mem_singleton] at h
    cases h
    rfl
  · simp at h
  · simp at h

theorem clientLoopF_query (fuel : Nat) :
    ∀ (rem : Bytes) (msgs : List PgMessage), clientLoopF fuel rem = Except.ok msgs →
      ∀ (sql : Bytes) (tt : Option TxnType), PgMessage.query sql tt ∈ msgs →
        tt = detectTransactionType sql := by
  induction fuel with
  | zero =>
    intro rem msgs h sql tt hmem
    simp only [clientLoopF] at h
    cases h
    simp at hmem
  | succ f ih =>
    intro rem msgs h sql tt hmem
    match rem with
    | [] =>
      simp only [clientLoopF] at h
      cases h
      simp at hmem
    | t :: b0 :: b1 :: b2 :: b3 :: tail =>
      simp only [clientLoopF] at h
      split_ifs at h with hlt
      · cases h
        simp at hmem
      · cases hrec : clientLoopF f ((b0 :: b1 :: b2 :: b3 :: tail).drop
            (b0 * 16777216 + b1 * 65536 + b2 * 256 + b3)) with
        | error e =>
          rw [hrec] at h
          cases h
        | ok more =>
          rw [hrec] at h
          cases h
          rcases List.mem_append.mp hmem with hL | hR
          · exact clientFrame_query _ _ _ _ hL
          · exact ih _ _ hrec _ _ hR
    | t :: [] => simp only [clientLoopF] at h; cases h
    | t :: [b0] => simp only [clientLoopF] at h; cases h
    | t :: [b0, b1] => simp only [clientLoopF] at h; cases h
    | t :: [b0, b1, b2] => simp only [clientLoopF] at h; cases h

/-- A successful parse of a startup frame produces no query message. -/
theorem startup_no_query (buffer sql : Bytes) (tt : Option TxnType)
    (h : PgMessage.query sql tt ∈ [parseStartupMessage buffer]) : False := by
  simp only [parseStartupMessage, List.mem_singleton] at h
  cases h

/-- C1: every Query frame parsed by the client-message parser carries the
classification of the first whitespace-trimmed token of the SQL text,
compared case-insensitively: BEGIN or START yield `begin`, COMMIT or END
yield `commit`, ROLLBACK or ABORT yield `rollback`, and any other first
token yields no classification. -/
theorem claim_C1 (buf : Bytes) (msgs : List PgMessage) (sql : Bytes) (tt : Option TxnType)
    (hparse : parseClientMessage buf = Except.ok msgs)
    (hmem : PgMessage.query sql tt ∈ msgs) :
    tt = detectTransactionType sql ∧
    ((detectTransactionType sql = some TxnType.tbegin) ↔
      (asciiUpper (firstToken sql) = strBytes "BEGIN" ∨
        asciiUpper (firstToken sql) = strBytes "START")) ∧
    ((detectTransactionType sql = some TxnType.tcommit) ↔
      (asciiUpper (firstToken sql) = strBytes "COMMIT" ∨
        asciiUpper (firstToken sql) = strBytes "END")) ∧
    ((detectTransactionType sql = some TxnType.trollback) ↔
      (asciiUpper (firstToken sql) = strBytes "ROLLBACK" ∨
        asciiUpper (firstToken sql) = strBytes "ABORT")) ∧
    ((detectTransactionType sql = none) ↔
      ¬(asciiUpper (firstToken sql) = strBytes "BEGIN" ∨
        asciiUpper (firstToken sql) = strBytes "START" ∨
        asciiUpper (firstToken sql) = strBytes "COMMIT" ∨
        asciiUpper (firstToken sql) = strBytes "END" ∨
        asciiUpper (firstToken sql) = strBytes "ROLLBACK" ∨
        asciiUpper (firstToken sql) = strBytes "ABORT")) := by
  refine ⟨?_, detect_cases sql⟩
  unfold parseClientMessage at hparse
  split_ifs at hparse with hc
  · cases hparse
    exact absurd hmem (fun h => startup_no_query _ _ _ h)
  · exact clientLoopF_query _ _ _ hparse _ _ hmem

/-- C1 witness: the Query frame for the SQL text BEGIN parses with the
`begin` classification. -/
theorem claim_C1_witness :
    some TxnType.tbegin = detectTransactionType (strBytes "BEGIN") ∧
    ((detectTransactionType (strBytes "BEGIN") = some TxnType.tbegin) ↔
      (asciiUpper (firstToken (strBytes "BEGIN")) = strBytes "BEGIN" ∨
        asciiUpper (firstToken (strBytes "BEGIN")) = strBytes "START")) ∧
    ((detectTransactionType (strBytes "BEGIN") = some TxnType.tcommit) ↔
      (asciiUpper (firstToken (strBytes "BEGIN")) = strBytes "COMMIT" ∨
        asciiUpper (firstToken (strBytes "BEGIN")) = strBytes "END")) ∧
    ((detectTransactionType (strBytes "BEGIN") = some TxnType.trollback) ↔
      (asciiUpper (firstToken (strBytes "BEGIN")) = strBytes "ROLLBACK" ∨
        asciiUpper (firstToken (strBytes "BEGIN")) = strBytes "ABORT")) ∧
    ((detectTransactionType (strBytes "BEGIN") = none) ↔
      ¬(asciiUpper (firstToken (strBytes "BEGIN")) = strBytes "BEGIN" ∨
        asciiUpper (firstToken (strBytes "BEGIN")) = strBytes "START" ∨
        asciiUpper (firstToken (strBytes "BEGIN")) = strBytes "COMMIT" ∨
        asciiUpper (firstToken (strBytes "BEGIN")) = strBytes "END" ∨
        asciiUpper (firstToken (strBytes "BEGIN")) = strBytes "ROLLBACK" ∨
        asciiUpper (firstToken (strBytes "BEGIN")) = strBytes "ABORT")) :=
  claim_C1 (createQueryMessage (strBytes "BEGIN"))
    [PgMessage.query (strBytes "BEGIN") (some TxnType.tbegin)]
    (strBytes "BEGIN") (some TxnType.tbegin) rfl (by decide)

/-- C10: the client-message parser recognizes a startup frame exactly when,
at offset 0, the buffer is at least 8 bytes, its first big-endian word equals
the whole buffer's length and its second word is 0x00030000; a startup frame
with extra bytes appended fails the length check and is parsed as a stream of
tagged frames instead. -/
theorem claim_C10 (buf extra : Bytes) :
    (startupCond buf ↔
      (8 ≤ buf.length ∧ be32At buf 0 = buf.length ∧ be32At buf 4 = 196608)) ∧
    (startupCond buf → parseClientMessage buf = Except.ok [parseStartupMessage buf]) ∧
    (¬ startupCond buf → parseClientMessage buf = parseTagged buf) ∧
    (8 ≤ buf.length → be32At buf 0 = buf.length → extra ≠ [] →
      ¬ startupCond (buf ++ extra) ∧
      parseClientMessage (buf ++ extra) = parseTagged (buf ++ extra)) := by
  refine ⟨Iff.rfl, fun hc => ?_, fun hnc => ?_, fun h8 hlen hex => ?_⟩
  · unfold parseClientMessage
    rw [if_pos hc]
  · unfold parseClientMessage
    rw [if_neg hnc]
  · have hne : ¬ startupCond (buf ++ extra) := by
      intro hc
      have hfirst : be32At (buf ++ extra) 0 = be32At buf 0 := by
        apply be32At_append_left
        omega
      have hl : be32At (buf ++ extra) 0 = buf.length + extra.length := by
        simpa using hc.2.1
      rw [hfirst, hlen] at hl
      have : extra.length = 0 := by omega
      exact hex (List.length_eq_zero.mp this)
    refine ⟨hne, ?_⟩
    unfold parseClientMessage
    rw [if_neg hne]

/-! Round-trip lemmas for the emitter-supported frames. -/

theorem authok_roundtrip :
    parseServerMessage createAuthenticationOk = Except.ok [PgMessage.authenticationOk] := rfl

theorem rfq_roundtrip (status : Nat) :
    parseServerMessage (createReadyForQuery status) =
      Except.ok [PgMessage.readyForQuery status] := rfl

theorem cc_roundtrip (tag : Bytes) (h0 : ∀ b ∈ tag, b ≠ 0)
    (h32 : tag.length + 5 < 4294967296) :
    parseServerMessage (createCommandComplete tag) =
      Except.ok [PgMessage.commandComplete tag (detectCommandCompleteTxn tag)] := by
  have hshape : createCommandComplete tag =
      67 :: be32Bytes (4 + (tag.length + 1)) ++ (tag ++ [0]) := by
    simp [createCommandComplete]
  unfold parseServerMessage
  rw [hshape]
  rw [serverLoop_single 67 (4 + (tag.length + 1)) (tag ++ [0]) _ (by simp; omega) (by omega)]
  unfold serverFrame
  norm_num
  have htc : takeCString (tag ++ [0]) = tag := by
    have h : tag ++ [0] = tag ++ 0 :: [] := rfl
    rw [h, takeCString_pre _ _ h0]
  rw [htc]
  exact ⟨rfl, rfl⟩

theorem errLoop_step (fuel ft : Nat) (v r : Bytes) (fields : List (Nat × Bytes))
    (hft : ft ≠ 0) (hv : ∀ b ∈ v, b ≠ 0) :
    errLoopF (fuel + 1) (ft :: (v ++ 0 :: r)) fields =
      errLoopF fuel r (recordSetN fields ft v) := by
  have hlen : 1 < (ft :: (v ++ 0 :: r)).length := by simp
  simp only [errLoopF]
  rw [if_pos hlen, if_neg hft, takeCString_pre _ _ hv, drop_cstring]

theorem errLoop_last (fuel : Nat) (fields : List (Nat × Bytes)) :
    errLoopF fuel [0] fields = fields := by
  cases fuel <;> rfl

theorem err_roundtrip (message : Bytes) (h0 : ∀ b ∈ message, b ≠ 0)
    (h32 : message.length + 21 < 4294967296) :
    parseServerMessage (createErrorResponse message) =
      Except.ok [PgMessage.errorResponse (some (strBytes "FATAL")) (some (strBytes "08006"))
        (some message)
        [(83, strBytes "FATAL"), (67, strBytes "08006"), (77, message)]] := by
  have l1 : strBytes "FATAL" = [70, 65, 84, 65, 76] := by decide
  have l2 : strBytes "08006" = [48, 56, 48, 48, 54] := by decide
  have hshape : createErrorResponse message =
      69 :: be32Bytes (message.length + 21) ++
        (83 :: (strBytes "FATAL" ++ 0 ::
          (67 :: (strBytes "08006" ++ 0 :: (77 :: (message ++ 0 :: [0])))))) := by
    simp [createErrorResponse, l1, l2]
    congr 1
    omega
  unfold parseServerMessage
  rw [hshape]
  rw [serverLoop_single 69 (message.length + 21)
    (83 :: (strBytes "FATAL" ++ 0 ::
      (67 :: (strBytes "08006" ++ 0 :: (77 :: (message ++ 0 :: [0])))))) _
    (by simp [l1, l2]; try omega) (by omega)]
  unfold serverFrame
  norm_num
  unfold parseErrorResponse
  have hlen : (83 :: (strBytes "FATAL" ++ 0 ::
      (67 :: (strBytes "08006" ++ 0 :: (77 :: (message ++ 0 :: [0])))))).length =
      message.length + 17 := by
    simp [l1, l2]
    try omega
  rw [hlen]
  rw [errLoop_step _ 83 _ _ _ (by omega) (by simp [l1])]
  have h16 : message.length + 17 = (message.length + 16) + 1 := by omega
  rw [h16]
  rw [errLoop_step _ 67 _ _ _ (by omega) (by simp [l2])]
  have h9 : message.length + 16 = (message.length + 15) + 1 := by omega
  rw [h9]
  rw [errLoop_step _ 77 _ _ _ (by omega) h0]
  rw [errLoop_last]
  simp [recordSetN, lookupN]

theorem startup_step (fuel : Nat) (k v r : Bytes) (acc : List (Bytes × Bytes))
    (hk : k ≠ []) (hk0 : ∀ b ∈ k, b ≠ 0) (hv0 : ∀ b ∈ v, b ≠ 0) :
    startupLoopF (fuel + 1) (k ++ 0 :: (v ++ 0 :: (r ++ [0]))) acc =
      startupLoopF fuel (r ++ [0]) (recordSet acc k v) := by
  have hlen : 1 < (k ++ 0 :: (v ++ 0 :: (r ++ [0]))).length := by
    simp
    omega
  simp only [startupLoopF]
  rw [if_pos hlen, takeCString_pre _ _ hk0, drop_cstring]
  have hne : v ++ 0 :: (r ++ [0]) ≠ [] := by simp
  rw [if_neg hne, takeCString_pre _ _ hv0, drop_cstring, if_pos hk]

theorem startup_last (fuel : Nat) (acc : List (Bytes × Bytes)) :
    startupLoopF fuel [0] acc = acc := by
  cases fuel <;> rfl

theorem flatParams_length (ps : List (Bytes × Bytes)) : ps.length ≤ (flatParams ps).length := by
  induction ps with
  | nil => simp [flatParams]
  | cons hd tl ih =>
    have h : flatParams (hd :: tl) = hd.1 ++ [0] ++ hd.2 ++ [0] ++ flatParams tl := rfl
    rw [h]
    simp
    omega

theorem startup_flat (ps : List (Bytes × Bytes)) :
    ∀ (fuel : Nat) (acc : List (Bytes × Bytes)), ps.length < fuel →
      (∀ p ∈ ps, p.1 ≠ [] ∧ (∀ b ∈ p.1, b ≠ 0) ∧ (∀ b ∈ p.2, b ≠ 0)) →
      startupLoopF fuel (flatParams ps ++ [0]) acc =
        ps.foldl (fun a p => recordSet a p.1 p.2) acc := by
  induction ps with
  | nil =>
    intro fuel acc hf hp
    have h : flatParams [] ++ [0] = [0] := rfl
    rw [h, startup_last]
    rfl
  | cons hd tl ih =>
    intro fuel acc hf hp
    match fuel with
    | 0 => omega
    | f + 1 =>
      have hshape : flatParams (hd :: tl) ++ [0] =
          hd.1 ++ 0 :: (hd.2 ++ 0 :: (flatParams tl ++ [0])) := by
        have h : flatParams (hd :: tl) = hd.1 ++ [0] ++ hd.2 ++ [0] ++ flatParams tl := rfl
        rw [h]
        simp
      rw [hshape]
      have hhd := hp hd (by simp)
      rw [startup_step f hd.1 hd.2 (flatParams tl) acc hhd.1 hhd.2.1 hhd.2.2]
      rw [ih f (recordSet acc hd.1 hd.2) (by simp at hf; omega)
        (fun p hmem => hp p (by simp [hmem]))]
      rfl

theorem recordSet_fresh (m : List (Bytes × Bytes)) (k v : Bytes)
    (h : k ∉ m.map Prod.fst) : recordSet m k v = m ++ [(k, v)] := by
  induction m with
  | nil => rfl
  | cons hd tl ih =>
    have hne : hd.1 ≠ k := by
      intro he
      exact h (by simp [← he])
    have htl : k ∉ tl.map Prod.fst := fun hm => h (by simp [hm])
    calc recordSet (hd :: tl) k v = hd :: recordSet tl k v := by
          simp [recordSet, hne]
      _ = hd :: (tl ++ [(k, v)]) := by rw [ih htl]
      _ = (hd :: tl) ++ [(k, v)] := rfl

theorem foldl_recordSet (ps : List (Bytes × Bytes)) :
    ∀ acc : List (Bytes × Bytes), (ps.map Prod.fst).Nodup →
      (∀ x ∈ ps.map Prod.fst, x ∉ acc.map Prod.fst) →
      ps.foldl (fun a p => recordSet a p.1 p.2) acc = acc ++ ps := by
  induction ps with
  | nil => intro acc _ _; simp
  | cons hd tl ih =>
    intro acc hnd hfresh
    have hstep : recordSet acc hd.1 hd.2 = acc ++ [hd] := by
      have h := recordSet_fresh acc hd.1 hd.2 (hfresh hd.1 (by simp))
      simpa using h
    have hndc := hnd
    rw [List.map_cons, List.nodup_cons] at hndc
    have hrest : tl.foldl (fun a p => recordSet a p.1 p.2) (acc ++ [hd]) =
        (acc ++ [hd]) ++ tl := by
      apply ih
      · exact hndc.2
      · intro x hx
        have hxacc : x ∉ acc.map Prod.fst := by
          apply hfresh x
          rw [List.map_cons]
          exact List.mem_cons_of_mem _ hx
        have hxhd : x ≠ hd.1 := by
          intro he
          exact hndc.1 (he ▸ hx)
        rw [List.map_append]
        intro hmem
        rcases List.mem_append.mp hmem with h | h
        · exact hxacc h
        · simp at h
          exact hxhd h
    calc (hd :: tl).foldl (fun a p => recordSet a p.1 p.2) acc
        = tl.foldl (fun a p => recordSet a p.1 p.2) (recordSet acc hd.1 hd.2) := rfl
      _ = tl.foldl (fun a p => recordSet a p.1 p.2) (acc ++ [hd]) := by rw [hstep]
      _ = (acc ++ [hd]) ++ tl := hrest
      _ = acc ++ (hd :: tl) := by simp

theorem be32At_protocol (l : Bytes) : be32At (0 :: 3 :: 0 :: 0 :: l) 0 = 196608 := by
  have h0 : (0 :: 3 :: 0 :: 0 :: l).getD 0 0 = 0 := rfl
  have h1 : (0 :: 3 :: 0 :: 0 :: l).getD 1 0 = 3 := rfl
  have h2 : (0 :: 3 :: 0 :: 0 :: l).getD 2 0 = 0 := rfl
  have h3 : (0 :: 3 :: 0 :: 0 :: l).getD 3 0 = 0 := rfl
  unfold be32At
  norm_num [h0, h1, h2, h3]

theorem startup_roundtrip (params : List (Bytes × Bytes))
    (hps : ∀ p ∈ params, p.1 ≠ [] ∧ (∀ b ∈ p.1, b ≠ 0) ∧ (∀ b ∈ p.2, b ≠ 0))
    (hnd : (params.map Prod.fst).Nodup)
    (h32 : 9 + (flatParams params).length < 4294967296) :
    parseClientMessage (createStartupMessage params) =
      Except.ok [PgMessage.startup params] := by
  have hlen : (createStartupMessage params).length =
      4 + 4 + (flatParams params).length + 1 := by
    simp [createStartupMessage, be32Bytes]
    omega
  have hbuf : createStartupMessage params =
      be32Bytes (4 + 4 + (flatParams params).length + 1) ++
        (0 :: 3 :: 0 :: 0 :: (flatParams params ++ [0])) := by
    simp [createStartupMessage, be32Bytes]
  have hcond : startupCond (createStartupMessage params) := by
    refine ⟨by omega, ?_, ?_⟩
    · rw [hlen, hbuf,
        be32At_be32Bytes (4 + 4 + (flatParams params).length + 1) _ (by omega)]
    · rw [hbuf]
      have hsk : be32At (be32Bytes (4 + 4 + (flatParams params).length + 1) ++
          (0 :: 3 :: 0 :: 0 :: (flatParams params ++ [0]))) 4 =
          be32At (0 :: 3 :: 0 :: 0 :: (flatParams params ++ [0])) 0 := by
        simp only [be32Bytes, List.cons_append, List.nil_append]
        exact be32At_cons4 _ _ _ _ _
      rw [hsk]
      exact be32At_protocol _
  unfold parseClientMessage
  rw [if_pos hcond]
  unfold parseStartupMessage
  have hdrop : (createStartupMessage params).drop 8 = flatParams params ++ [0] := by
    simp [createStartupMessage, be32Bytes]
  rw [hdrop, hlen]
  rw [startup_flat params _ []
    (by have := flatParams_length params; omega) hps]
  rw [foldl_recordSet params [] hnd (by simp)]
  simp

theorem getD_lt_bound (l : Bytes) (h : ∀ b ∈ l, b < 256) :
    ∀ i, l.getD i 0 < 256 := by
  induction l with
  | nil => intro i; simp [List.getD]
  | cons a tl ih =>
    intro i
    match i with
    | 0 => simpa using h a (by simp)
    | j + 1 =>
      simp only [List.getD_cons_succ]
      exact ih (fun b hb => h b (by simp [hb])) j

theorem getD_mem_ne (l : Bytes) (h : ∀ b ∈ l, b ≠ 0) :
    ∀ i, i < l.length → l.getD i 0 ≠ 0 := by
  induction l with
  | nil => intro i hi; simp at hi
  | cons a tl ih =>
    intro i hi
    match i with
    | 0 => simpa using h a (by simp)
    | j + 1 =>
      simp only [List.getD_cons_succ]
      exact ih (fun b hb => h b (by simp [hb])) j (by simp at hi; omega)

theorem query_roundtrip (sql : Bytes) (h0 : ∀ b ∈ sql, b ≠ 0)
    (hb : ∀ b ∈ sql, b < 256) (h32 : sql.length + 5 < 4294967296) :
    parseClientMessage (createQueryMessage sql) =
      Except.ok [PgMessage.query sql (detectTransactionType sql)] := by
  have hnc : ¬ startupCond (createQueryMessage sql) := by
    rintro ⟨h8, hfst, hsnd⟩
    have hql : (createQueryMessage sql).length = sql.length + 6 := by
      simp [createQueryMessage, be32Bytes]
    have hsql2 : 2 ≤ sql.length := by
      rw [hql] at h8
      omega
    have hx1 : (sql ++ [0]).getD 1 0 ≠ 0 := by
      rw [List.getD_append _ _ _ _ (by omega)]
      exact getD_mem_ne sql h0 1 (by omega)
    have hball : ∀ b ∈ sql ++ [0], b < 256 := by
      intro b hbm
      rcases List.mem_append.mp hbm with h | h
      · exact hb b h
      · simp at h
        omega
    have hcons : createQueryMessage sql =
        81 :: (4 + (sql.length + 1)) / 16777216 % 256 ::
        (4 + (sql.length + 1)) / 65536 % 256 ::
        (4 + (sql.length + 1)) / 256 % 256 ::
        (4 + (sql.length + 1)) % 256 :: (sql ++ [0]) := by
      simp [createQueryMessage, be32Bytes]
    have hsnd2 : be32At (createQueryMessage sql) 4 =
        (4 + (sql.length + 1)) % 256 * 16777216 + (sql ++ [0]).getD 0 0 * 65536 +
          (sql ++ [0]).getD 1 0 * 256 + (sql ++ [0]).getD 2 0 := by
      rw [hcons]
      rfl
    rw [hsnd2] at hsnd
    have b1 := getD_lt_bound (sql ++ [0]) hball 0
    have b2 := getD_lt_bound (sql ++ [0]) hball 1
    have b3 := getD_lt_bound (sql ++ [0]) hball 2
    have hm : (4 + (sql.length + 1)) % 256 < 256 := Nat.mod_lt _ (by omega)
    omega
  have hshape : createQueryMessage sql =
      81 :: be32Bytes (4 + (sql.length + 1)) ++ (sql ++ [0]) := by
    simp [createQueryMessage]
  unfold parseClientMessage
  rw [if_neg hnc]
  unfold parseTagged
  rw [hshape]
  rw [clientLoop_single 81 (4 + (sql.length + 1)) (sql ++ [0]) _ (by simp; omega) (by omega)]
  unfold clientFrame parseQuery
  norm_num
  have htc : takeCString (sql ++ [0]) = sql := by
    have h : sql ++ [0] = sql ++ 0 :: [] := rfl
    rw [h, takeCString_pre _ _ h0]
  rw [htc]
  exact ⟨rfl, rfl⟩

theorem ssl_roundtrip : isSSLRequest createSSLRequestMessage = true := rfl

/-- C6: emitting each frame type the codec's emitter supports and re-parsing
the bytes with the corresponding parser yields exactly one structurally
equivalent message (for SSLRequest the corresponding parser is the
`isSSLRequest` recognizer).  The byte-validity hypotheses mirror the
emitters' own domains (NUL-free strings, non-empty distinct startup keys,
lengths below the `writeUInt32BE` cap). -/
theorem claim_C6 (status : Nat) (tag msg sql : Bytes) (params : List (Bytes × Bytes))
    (htag0 : ∀ b ∈ tag, b ≠ 0) (htag32 : tag.length + 5 < 4294967296)
    (hmsg0 : ∀ b ∈ msg, b ≠ 0) (hmsg32 : msg.length + 21 < 4294967296)
    (hsql0 : ∀ b ∈ sql, b ≠ 0) (hsqlb : ∀ b ∈ sql, b < 256)
    (hsql32 : sql.length + 5 < 4294967296)
    (hps : ∀ p ∈ params, p.1 ≠ [] ∧ (∀ b ∈ p.1, b ≠ 0) ∧ (∀ b ∈ p.2, b ≠ 0))
    (hnd : (params.map Prod.fst).Nodup)
    (hp32 : 9 + (flatParams params).length < 4294967296) :
    parseServerMessage createAuthenticationOk = Except.ok [PgMessage.authenticationOk] ∧
    parseServerMessage (createReadyForQuery status) =
      Except.ok [PgMessage.readyForQuery status] ∧
    parseServerMessage (createCommandComplete tag) =
      Except.ok [PgMessage.commandComplete tag (detectCommandCompleteTxn tag)] ∧
    parseServerMessage (createErrorResponse msg) =
      Except.ok [PgMessage.errorResponse (some (strBytes "FATAL")) (some (strBytes "08006"))
        (some msg) [(83, strBytes "FATAL"), (67, strBytes "08006"), (77, msg)]] ∧
    parseClientMessage (createStartupMessage params) =
      Except.ok [PgMessage.startup params] ∧
    parseClientMessage (createQueryMessage sql) =
      Except.ok [PgMessage.query sql (detectTransactionType sql)] ∧
    isSSLRequest createSSLRequestMessage = true :=
  ⟨authok_roundtrip, rfq_roundtrip status, cc_roundtrip tag htag0 htag32,
   err_roundtrip msg hmsg0 hmsg32, startup_roundtrip params hps hnd hp32,
   query_roundtrip sql hsql0 hsqlb hsql32, ssl_roundtrip⟩

/-- C6 witness: the round trips at concrete frames (tag COMMIT, message
oops, SQL SELECT 1, startup parameters user/database). -/
theorem claim_C6_witness :
    parseServerMessage createAuthenticationOk = Except.ok [PgMessage.authenticationOk] ∧
    parseServerMessage (createReadyForQuery 73) =
      Except.ok [PgMessage.readyForQuery 73] ∧
    parseServerMessage (createCommandComplete (strBytes "COMMIT")) =
      Except.ok [PgMessage.commandComplete (strBytes "COMMIT")
        (detectCommandCompleteTxn (strBytes "COMMIT"))] ∧
    parseServerMessage (createErrorResponse (strBytes "oops")) =
      Except.ok [PgMessage.errorResponse (some (strBytes "FATAL")) (some (strBytes "08006"))
        (some (strBytes "oops"))
        [(83, strBytes "FATAL"), (67, strBytes "08006"), (77, strBytes "oops")]] ∧
    parseClientMessage (createStartupMessage
        [(strBytes "user", strBytes "u"), (strBytes "database", strBytes "d")]) =
      Except.ok [PgMessage.startup
        [(strBytes "user", strBytes "u"), (strBytes "database", strBytes "d")]] ∧
    parseClientMessage (createQueryMessage (strBytes "SELECT 1")) =
      Except.ok [PgMessage.query (strBytes "SELECT 1")
        (detectTransactionType (strBytes "SELECT 1"))] ∧
    isSSLRequest createSSLRequestMessage = true :=
  claim_C6 73 (strBytes "COMMIT") (strBytes "oops") (strBytes "SELECT 1")
    [(strBytes "user", strBytes "u"), (strBytes "database", strBytes "d")]
    (by decide) (by decide) (by decide) (by decide) (by decide) (by decide) (by decide)
    (by decide) (by decide) (by decide)

/-! Handler-level lemmas and claims. -/

theorem markIdle_released (conns : List ServerConn) (cid : Nat) :
    ∀ c ∈ markIdle conns cid, c.id = cid → c.inUse = false := by
  intro c hc hid
  unfold markIdle at hc
  rcases List.mem_map.mp hc with ⟨c0, hc0, hfc⟩
  by_cases h : c0.id = cid
  · rw [← hfc]
    simp [h]
  · rw [← hfc] at hid
    simp [h] at hid

theorem releaseConnection_conns (p : Pool) (mode : PoolMode) (cid : Nat)
    (sid : Option Nat) :
    (releaseConnection p mode (some cid) sid).conns = markIdle p.conns cid := by
  simp only [releaseConnection]
  split <;> rfl

/-- C3: in transaction mode, server data containing a ReadyForQuery releases
the backend (the session's backend becomes empty, both flags end false, and
every pool entry with that backend's id is idle) exactly when pending_release
is set or in_transaction is clear; otherwise the backend is kept and session
and pool are unchanged. -/
theorem claim_C3 (cfg : Config) (w : World) (data : Bytes) (msgs : List PgMessage)
    (hmode : cfg.poolMode = PoolMode.transaction)
    (hparse : parseServerMessage data = Except.ok msgs)
    (hrfq : msgs.any isRFQmsg = true) :
    ((w.session.pendingRelease = true ∨ w.session.inTransaction = false) →
      (serverDataStep cfg w.session w.pool data).1.currentServerConnection = none ∧
      (serverDataStep cfg w.session w.pool data).1.pendingRelease = false ∧
      (serverDataStep cfg w.session w.pool data).1.inTransaction = false ∧
      ∀ cid, w.session.currentServerConnection = some cid →
        connReleased (serverDataStep cfg w.session w.pool data).2.1 cid) ∧
    (w.session.pendingRelease = false → w.session.inTransaction = true →
      (serverDataStep cfg w.session w.pool data).1 = w.session ∧
      (serverDataStep cfg w.session w.pool data).2.1 = w.pool) := by
  constructor
  · intro hrel
    cases hp : w.session.pendingRelease with
    | true =>
      have hstep : serverDataStep cfg w.session w.pool data =
          ({ w.session with
              currentServerConnection := none
              pendingRelease := false
              inTransaction := false },
           releaseConnection w.pool cfg.poolMode w.session.currentServerConnection none,
           [Action.writeClient data]) := by
        unfold serverDataStep
        rw [hparse]
        simp [hrfq, hmode, hp]
      rw [hstep]
      refine ⟨rfl, rfl, rfl, ?_⟩
      intro cid hcid c hc hcm
      rw [hcid, releaseConnection_conns] at hc
      exact markIdle_released _ _ c hc hcm
    | false =>
      have hit : w.session.inTransaction = false := by
        rcases hrel with h | h
        · rw [hp] at h
          cases h
        · exact h
      have hstep : serverDataStep cfg w.session w.pool data =
          ({ w.session with currentServerConnection := none },
           releaseConnection w.pool cfg.poolMode w.session.currentServerConnection none,
           [Action.writeClient data]) := by
        unfold serverDataStep
        rw [hparse]
        simp [hrfq, hmode, hp, hit]
      rw [hstep]
      refine ⟨rfl, by simp [hp], by simp [hit], ?_⟩
      intro cid hcid c hc hcm
      rw [hcid, releaseConnection_conns] at hc
      exact markIdle_released _ _ c hc hcm
  · intro hp hit
    have hstep : serverDataStep cfg w.session w.pool data =
        (w.session, w.pool, [Action.writeClient data]) := by
      unfold serverDataStep
      rw [hparse]
      simp [hrfq, hmode, hp, hit]
    rw [hstep]
    exact ⟨rfl, rfl⟩

/-- The concrete configurations and states used by the counterexamples. -/
def cfgStatement : Config :=
  { poolMode := PoolMode.statement, clientTlsMode := TlsMode.disable,
    clientTlsKeyFile := none, clientTlsCertFile := none, clientTlsCaFile := none }

def poolOne : Pool :=
  { conns := [{ id := 5, database := strBytes "postgres", user := strBytes "postgres",
                inUse := true, authenticated := true }],
    sessionTracked := [], totalConnections := 1, maxClientConnections := 10,
    nextId := 6, createSucceeds := true }

def sessHold : ClientSession :=
  { sessionId := 1, database := strBytes "postgres", user := strBytes "postgres",
    currentServerConnection := some 5, state := SessState.active,
    authenticated := true, pendingRelease := false, inTransaction := false }

def sessNoConn : ClientSession := { sessHold with currentServerConnection := none }

/-- C4: in statement mode the code never releases on ReadyForQuery (the
release block is guarded by pool mode transaction) and a session without a
backend gets the `No server connection` error instead of re-acquiring: the
session and pool are unchanged by a ReadyForQuery, contradicting the claim
and the README's description of the statement-mode stub. -/
theorem claim_C4_codebug :
    (serverDataStep cfgStatement sessHold poolOne (createReadyForQuery 73)).1 = sessHold ∧
    (serverDataStep cfgStatement sessHold poolOne (createReadyForQuery 73)).2.1 = poolOne ∧
    handleQuery cfgStatement sessNoConn poolOne (strBytes "SELECT 1") none =
      (sessNoConn, poolOne,
       [Action.writeClient (createErrorResponse (strBytes "No server connection"))]) := by
  refine ⟨rfl, rfl, rfl⟩

def cfgTransaction : Config :=
  { poolMode := PoolMode.transaction, clientTlsMode := TlsMode.disable,
    clientTlsKeyFile := none, clientTlsCertFile := none, clientTlsCaFile := none }

def worldPending : World :=
  { session := { sessHold with
      pendingRelease := true
      inTransaction := true },
    pool := poolOne }

/-- C3 witness: a pending release plus a concrete ReadyForQuery chunk
releases backend 5 and clears both flags. -/
theorem claim_C3_witness :
    (serverDataStep cfgTransaction worldPending.session worldPending.pool
      (createReadyForQuery 73)).1.currentServerConnection = none ∧
    (serverDataStep cfgTransaction worldPending.session worldPending.pool
      (createReadyForQuery 73)).1.pendingRelease = false ∧
    (serverDataStep cfgTransaction worldPending.session worldPending.pool
      (createReadyForQuery 73)).1.inTransaction = false ∧
    ∀ cid, worldPending.session.currentServerConnection = some cid →
      connReleased (serverDataStep cfgTransaction worldPending.session worldPending.pool
        (createReadyForQuery 73)).2.1 cid :=
  (claim_C3 cfgTransaction worldPending (createReadyForQuery 73)
    [PgMessage.readyForQuery 73] rfl rfl rfl).1 (Or.inl rfl)

def cfgSession : Config :=
  { poolMode := PoolMode.session, clientTlsMode := TlsMode.disable,
    clientTlsKeyFile := none, clientTlsCertFile := none, clientTlsCaFile := none }

def poolExhausted : Pool :=
  { conns := [{ id := 0, database := strBytes "postgres", user := strBytes "postgres",
                inUse := true, authenticated := true }],
    sessionTracked := [], totalConnections := 1, maxClientConnections := 1,
    nextId := 1, createSucceeds := true }

/-- C7 counterexample: with the pool at its cap and no idle backend, the
startup handler writes the generic `Failed to connect to database` error (the
catch path of the thrown `No available connection for session`), not
`Connection pool exhausted` as claimed. -/
theorem claim_C7_counterexample :
    (handleStartup cfgSession (newSession 1) poolExhausted []).2.2 =
      [Action.writeClient (createErrorResponse (strBytes "Failed to connect to database")),
       Action.closeClient] ∧
    (handleStartup cfgSession (newSession 1) poolExhausted []).2.2 ≠
      [Action.writeClient (createErrorResponse (strBytes "Connection pool exhausted")),
       Action.closeClient] := by
  refine ⟨rfl, by decide⟩

/-- C7 (amended): in session mode, when the pool cannot supply a backend at
startup, the handler writes an ErrorResponse whose message text is exactly
`Failed to connect to database` and closes the client socket (the
`Connection pool exhausted` message of the claim does not occur in the
current startup path); the session keeps no backend and stays in
`authenticating`. -/
theorem claim_C7_amended (cfg : Config) (s : ClientSession) (p : Pool)
    (params : List (Bytes × Bytes))
    (hmode : cfg.poolMode = PoolMode.session)
    (hex : (getConnection p PoolMode.session (some s.sessionId)
        (jsOrBytes (recLookup params (strBytes "database")) (strBytes "postgres"))
        (jsOrBytes (recLookup params (strBytes "user")) (strBytes "postgres"))).1 = none) :
    (handleStartup cfg s p params).2.2 =
      [Action.writeClient (createErrorResponse (strBytes "Failed to connect to database")),
       Action.closeClient] ∧
    (handleStartup cfg s p params).1.state = SessState.authenticating ∧
    (handleStartup cfg s p params).1.currentServerConnection =
      s.currentServerConnection := by
  cases hgc : getConnection p PoolMode.session (some s.sessionId)
      (jsOrBytes (recLookup params (strBytes "database")) (strBytes "postgres"))
      (jsOrBytes (recLookup params (strBytes "user")) (strBytes "postgres")) with
  | mk copt p1 =>
    rw [hgc] at hex
    simp at hex
    subst hex
    simp [handleStartup, hmode, hgc]

/-- C7 witness: the amended behavior at the concrete exhausted pool. -/
theorem claim_C7_amended_witness :
    (handleStartup cfgSession (newSession 1) poolExhausted []).2.2 =
      [Action.writeClient (createErrorResponse (strBytes "Failed to connect to database")),
       Action.closeClient] ∧
    (handleStartup cfgSession (newSession 1) poolExhausted []).1.state =
      SessState.authenticating ∧
    (handleStartup cfgSession (newSession 1) poolExhausted []).1.currentServerConnection =
      (newSession 1).currentServerConnection :=
  claim_C7_amended cfgSession (newSession 1) poolExhausted [] rfl (by decide)

def cfgTlsPrefer : Config :=
  { poolMode := PoolMode.session, clientTlsMode := TlsMode.prefer,
    clientTlsKeyFile := some "server.key", clientTlsCertFile := some "server.crt",
    clientTlsCaFile := none }

/-- C8 counterexample: after an accepted SSLRequest the session state is
`authenticating`, not `new` as the claim states. -/
theorem claim_C8_counterexample :
    (handleSSLRequest cfgTlsPrefer (newSession 0)).1.state = SessState.authenticating ∧
    (handleSSLRequest cfgTlsPrefer (newSession 0)).1.state ≠ SessState.snew := by
  refine ⟨rfl, by decide⟩

/-- C8 (amended): when the SSLRequest is accepted (TLS not disabled, key and
cert configured, CA configured in the verify modes), the pooler writes the
single byte `S`, upgrades the socket, and sets the session state to
`authenticating` (not `new`); the subsequent startup over TLS is still
processed as an initial frame, because non-`new` states route data straight
to the client-message parser, which recognizes a startup frame regardless of
session state. -/
theorem claim_C8_amended (cfg : Config) (s : ClientSession)
    (hm : cfg.clientTlsMode ≠ TlsMode.disable)
    (hk : cfg.clientTlsKeyFile.isSome = true)
    (hc : cfg.clientTlsCertFile.isSome = true)
    (hca : (cfg.clientTlsMode = TlsMode.verifyCa ∨ cfg.clientTlsMode = TlsMode.verifyFull) →
      cfg.clientTlsCaFile.isSome = true) :
    handleSSLRequest cfg s =
      ({ s with state := SessState.authenticating },
       [Action.writeClient (strBytes "S"), Action.upgradeTLS]) ∧
    (∀ d, dataRoute cfg { s with state := SessState.authenticating } d = Route.process) ∧
    (∀ buf, startupCond buf →
      parseClientMessage buf = Except.ok [parseStartupMessage buf]) := by
  refine ⟨?_, ?_, ?_⟩
  · unfold handleSSLRequest
    rw [if_neg hm, if_pos ⟨hk, hc⟩]
    have hno : ¬ ((cfg.clientTlsMode = TlsMode.verifyCa ∨
        cfg.clientTlsMode = TlsMode.verifyFull) ∧ cfg.clientTlsCaFile.isNone) := by
      rintro ⟨hv, hnone⟩
      have hsome := hca hv
      cases hopt : cfg.clientTlsCaFile with
      | some v =>
        rw [hopt] at hnone
        simp [Option.isNone] at hnone
      | none =>
        rw [hopt] at hsome
        simp at hsome
    rw [if_neg hno]
  · intro d
    unfold dataRoute
    rw [if_neg (by simp)]
  · intro buf hcond
    unfold parseClientMessage
    rw [if_pos hcond]

/-- C8 witness: the amended behavior at the concrete prefer-mode config. -/
theorem claim_C8_amended_witness :
    handleSSLRequest cfgTlsPrefer (newSession 0) =
      ({ newSession 0 with state := SessState.authenticating },
       [Action.writeClient (strBytes "S"), Action.upgradeTLS]) ∧
    (∀ d, dataRoute cfgTlsPrefer { newSession 0 with state := SessState.authenticating } d =
      Route.process) ∧
    (∀ buf, startupCond buf →
      parseClientMessage buf = Except.ok [parseStartupMessage buf]) :=
  claim_C8_amended cfgTlsPrefer (newSession 0) (by decide) rfl rfl (by decide)

/-- C9: a startup frame whose parameter map lacks the `database` key, lacks
the `user` key, or maps either one to the empty string — each case
independently, including one present and the other missing — proceeds with
the literal default `postgres` substituted for the missing or empty value,
and the handler behaves exactly as if the map had carried the substituted
values for both keys, so acquisition is keyed on the substituted values
instead of failing. -/
theorem claim_C9 (cfg : Config) (s : ClientSession) (p : Pool)
    (params : List (Bytes × Bytes)) :
    ((recLookup params (strBytes "database") = none ∨
        recLookup params (strBytes "database") = some []) →
      (handleStartup cfg s p params).1.database = strBytes "postgres") ∧
    ((recLookup params (strBytes "user") = none ∨
        recLookup params (strBytes "user") = some []) →
      (handleStartup cfg s p params).1.user = strBytes "postgres") ∧
    handleStartup cfg s p params =
      handleStartup cfg s p
        [(strBytes "database",
          jsOrBytes (recLookup params (strBytes "database")) (strBytes "postgres")),
         (strBytes "user",
          jsOrBytes (recLookup params (strBytes "user")) (strBytes "postgres"))] := by
  have hpg : strBytes "postgres" ≠ ([] : Bytes) := by decide
  have hne : ∀ o : Option Bytes, jsOrBytes o (strBytes "postgres") ≠ [] := by
    intro o
    cases o with
    | none => exact hpg
    | some v =>
      by_cases hv : v = []
      · simp only [jsOrBytes, hv, if_pos]
        exact hpg
      · simp only [jsOrBytes]
        rw [if_neg hv]
        exact hv
  have e1 : recLookup
      [(strBytes "database",
        jsOrBytes (recLookup params (strBytes "database")) (strBytes "postgres")),
       (strBytes "user",
        jsOrBytes (recLookup params (strBytes "user")) (strBytes "postgres"))]
      (strBytes "database") =
      some (jsOrBytes (recLookup params (strBytes "database")) (strBytes "postgres")) := by
    simp [recLookup]
  have e2 : recLookup
      [(strBytes "database",
        jsOrBytes (recLookup params (strBytes "database")) (strBytes "postgres")),
       (strBytes "user",
        jsOrBytes (recLookup params (strBytes "user")) (strBytes "postgres"))]
      (strBytes "user") =
      some (jsOrBytes (recLookup params (strBytes "user")) (strBytes "postgres")) := by
    have hk : ¬ (strBytes "database" = strBytes "user") := by decide
    simp [recLookup, hk]
  have h3 : jsOrBytes (recLookup
      [(strBytes "database",
        jsOrBytes (recLookup params (strBytes "database")) (strBytes "postgres")),
       (strBytes "user",
        jsOrBytes (recLookup params (strBytes "user")) (strBytes "postgres"))]
      (strBytes "database")) (strBytes "postgres") =
      jsOrBytes (recLookup params (strBytes "database")) (strBytes "postgres") := by
    rw [e1]
    generalize hX : jsOrBytes (recLookup params (strBytes "database")) (strBytes "postgres") = X
    have hXne : X ≠ [] := hX ▸ hne (recLookup params (strBytes "database"))
    simp [jsOrBytes, hXne]
  have h4 : jsOrBytes (recLookup
      [(strBytes "database",
        jsOrBytes (recLookup params (strBytes "database")) (strBytes "postgres")),
       (strBytes "user",
        jsOrBytes (recLookup params (strBytes "user")) (strBytes "postgres"))]
      (strBytes "user")) (strBytes "postgres") =
      jsOrBytes (recLookup params (strBytes "user")) (strBytes "postgres") := by
    rw [e2]
    generalize hX : jsOrBytes (recLookup params (strBytes "user")) (strBytes "postgres") = X
    have hXne : X ≠ [] := hX ▸ hne (recLookup params (strBytes "user"))
    simp [jsOrBytes, hXne]
  refine ⟨?_, ?_, ?_⟩
  · intro hdb
    have h1 : jsOrBytes (recLookup params (strBytes "database")) (strBytes "postgres") =
        strBytes "postgres" := by
      rcases hdb with h | h <;> simp [jsOrBytes, h]
    unfold handleStartup
    rw [h1]
    cases hpm : cfg.poolMode <;> dsimp only
    case session =>
      cases hgc : getConnection p PoolMode.session (some s.sessionId)
          (strBytes "postgres")
          (jsOrBytes (recLookup params (strBytes "user")) (strBytes "postgres")) with
      | mk copt p1 =>
        cases copt <;> rfl
  · intro hus
    have h2 : jsOrBytes (recLookup params (strBytes "user")) (strBytes "postgres") =
        strBytes "postgres" := by
      rcases hus with h | h <;> simp [jsOrBytes, h]
    unfold handleStartup
    rw [h2]
    cases hpm : cfg.poolMode <;> dsimp only
    case session =>
      cases hgc : getConnection p PoolMode.session (some s.sessionId)
          (jsOrBytes (recLookup params (strBytes "database")) (strBytes "postgres"))
          (strBytes "postgres") with
      | mk copt p1 =>
        cases copt <;> rfl
  · unfold handleStartup
    rw [h3, h4]

/-! Transaction-window stability (claim C2). -/

theorem step_clientQuery (cfg : Config) (w : World) (sql : Bytes) :
    step cfg w (Event.clientQuery sql) =
      { session := (handleQuery cfg w.session w.pool sql (detectTransactionType sql)).1,
        pool := (handleQuery cfg w.session w.pool sql (detectTransactionType sql)).2.1 } := rfl

theorem step_serverData (cfg : Config) (w : World) (d : Bytes) :
    step cfg w (Event.serverData d) =
      { session := (serverDataStep cfg w.session w.pool d).1,
        pool := (serverDataStep cfg w.session w.pool d).2.1 } := rfl

theorem invA_step (cfg : Config) (w : World) (c : Nat) (e : Event)
    (hmode : cfg.poolMode = PoolMode.transaction)
    (h1 : w.session.currentServerConnection = some c)
    (h2 : w.session.inTransaction = true)
    (h3 : w.session.pendingRelease = false)
    (he : isCommitRollbackEv e = false) :
    (step cfg w e).session.currentServerConnection = some c ∧
    (step cfg w e).session.inTransaction = true ∧
    (step cfg w e).session.pendingRelease = false := by
  cases e with
  | clientQuery sql =>
    simp only [isCommitRollbackEv, decide_eq_false_iff_not, not_or] at he
    rw [step_clientQuery]
    unfold handleQuery
    rw [h1]
    unfold handleQueryProceed
    by_cases hb : detectTransactionType sql = some TxnType.tbegin <;>
      simp [hb, hmode, h1, h2, h3, he.1, he.2]
  | serverData d =>
    rw [step_serverData]
    unfold serverDataStep
    cases hps : parseServerMessage d with
    | error err => exact ⟨h1, h2, h3⟩
    | ok msgs =>
      by_cases hR : msgs.any isRFQmsg <;>
        simp [hps, hR, hmode, h1, h2, h3]

theorem invB_step (cfg : Config) (w : World) (c : Nat) (e : Event)
    (hmode : cfg.poolMode = PoolMode.transaction)
    (h1 : w.session.currentServerConnection = some c)
    (h2 : w.session.pendingRelease = true)
    (he : isServerRFQEv e = false) :
    (step cfg w e).session.currentServerConnection = some c ∧
    (step cfg w e).session.pendingRelease = true := by
  cases e with
  | clientQuery sql =>
    rw [step_clientQuery]
    unfold handleQuery
    rw [h1]
    unfold handleQueryProceed
    by_cases hb : detectTransactionType sql = some TxnType.tbegin <;>
      by_cases hcr : detectTransactionType sql = some TxnType.tcommit ∨
        detectTransactionType sql = some TxnType.trollback <;>
      simp [hb, hcr, hmode, h1, h2]
  | serverData d =>
    rw [step_serverData]
    unfold serverDataStep
    cases hps : parseServerMessage d with
    | error err => exact ⟨h1, h2⟩
    | ok msgs =>
      have hR : msgs.any isRFQmsg = false := by
        simp only [isServerRFQEv, hps] at he
        exact he
      simp [hps, hR, h1, h2]

theorem runA (cfg : Config) (es : List Event) :
    ∀ (w : World) (c : Nat), cfg.poolMode = PoolMode.transaction →
      w.session.currentServerConnection = some c →
      w.session.inTransaction = true →
      w.session.pendingRelease = false →
      (∀ e ∈ es, isCommitRollbackEv e = false) →
      (run cfg w es).session.currentServerConnection = some c ∧
      (run cfg w es).session.inTransaction = true ∧
      (run cfg w es).session.pendingRelease = false := by
  induction es with
  | nil => intro w c _ h1 h2 h3 _; exact ⟨h1, h2, h3⟩
  | cons e tl ih =>
    intro w c hmode h1 h2 h3 hall
    have hstep := invA_step cfg w c e hmode h1 h2 h3 (hall e (by simp))
    exact ih (step cfg w e) c hmode hstep.1 hstep.2.1 hstep.2.2
      (fun x hx => hall x (by simp [hx]))

theorem runB (cfg : Config) (es : List Event) :
    ∀ (w : World) (c : Nat), cfg.poolMode = PoolMode.transaction →
      w.session.currentServerConnection = some c →
      w.session.pendingRelease = true →
      (∀ e ∈ es, isServerRFQEv e = false) →
      (run cfg w es).session.currentServerConnection = some c ∧
      (run cfg w es).session.pendingRelease = true := by
  induction es with
  | nil => intro w c _ h1 h2 _; exact ⟨h1, h2⟩
  | cons e tl ih =>
    intro w c hmode h1 h2 hall
    have hstep := invB_step cfg w c e hmode h1 h2 (hall e (by simp))
    exact ih (step cfg w e) c hmode hstep.1 hstep.2
      (fun x hx => hall x (by simp [hx]))

theorem begin_step (cfg : Config) (w0 : World) (sqlB : Bytes) (c : Nat)
    (hmode : cfg.poolMode = PoolMode.transaction)
    (hpend : w0.session.pendingRelease = false)
    (hB : detectTransactionType sqlB = some TxnType.tbegin)
    (hc : (step cfg w0 (Event.clientQuery sqlB)).session.currentServerConnection = some c) :
    (step cfg w0 (Event.clientQuery sqlB)).session.inTransaction = true ∧
    (step cfg w0 (Event.clientQuery sqlB)).session.pendingRelease = false := by
  have hnotc : detectTransactionType sqlB ≠ some TxnType.tcommit := by
    rw [hB]; simp
  have hnotr : detectTransactionType sqlB ≠ some TxnType.trollback := by
    rw [hB]; simp
  rw [step_clientQuery] at hc ⊢
  unfold handleQuery at hc ⊢
  cases h0 : w0.session.currentServerConnection with
  | some c0 =>
    unfold handleQueryProceed
    simp [hB, hmode, hpend, hnotc, hnotr]
  | none =>
    rw [hmode] at hc ⊢
    rw [h0] at hc
    cases hg : getConnection w0.pool PoolMode.transaction none w0.session.database
        w0.session.user with
    | mk copt p1 =>
      cases copt with
      | none =>
        rw [hg] at hc
        simp [h0] at hc
      | some cN =>
        unfold handleQueryProceed
        simp [hB, hmode, hpend, hnotc, hnotr]

theorem commit_step (cfg : Config) (w : World) (c : Nat) (sqlC : Bytes)
    (hmode : cfg.poolMode = PoolMode.transaction)
    (h1 : w.session.currentServerConnection = some c)
    (hC : detectTransactionType sqlC = some TxnType.tcommit ∨
      detectTransactionType sqlC = some TxnType.trollback) :
    (step cfg w (Event.clientQuery sqlC)).session.currentServerConnection = some c ∧
    (step cfg w (Event.clientQuery sqlC)).session.pendingRelease = true := by
  rw [step_clientQuery]
  unfold handleQuery
  rw [h1]
  unfold handleQueryProceed
  by_cases hb : detectTransactionType sqlC = some TxnType.tbegin
  · exfalso
    rcases hC with h | h <;> rw [hb] at h <;>
      exact absurd (Option.some.inj h) (by decide)
  · simp [hb, hmode, h1, hC]

/-- C2 (amended): in transaction mode, provided the session has no release
already pending when the BEGIN is observed (no earlier COMMIT/ROLLBACK is
still awaiting its ReadyForQuery), the session's backend stays the same
object from the observed BEGIN through any events without a COMMIT/ROLLBACK
query, through the COMMIT/ROLLBACK itself, and through any further events up
to (but not including) the ReadyForQuery that answers it; in particular no
intermediate ReadyForQuery releases or replaces it. -/
theorem claim_C2_amended (cfg : Config) (w0 : World) (sqlB : Bytes) (c : Nat)
    (es1 : List Event) (sqlC : Bytes) (es2 : List Event)
    (hmode : cfg.poolMode = PoolMode.transaction)
    (hpend : w0.session.pendingRelease = false)
    (hB : detectTransactionType sqlB = some TxnType.tbegin)
    (hc : (step cfg w0 (Event.clientQuery sqlB)).session.currentServerConnection = some c)
    (hes1 : ∀ e ∈ es1, isCommitRollbackEv e = false)
    (hC : detectTransactionType sqlC = some TxnType.tcommit ∨
      detectTransactionType sqlC = some TxnType.trollback)
    (hes2 : ∀ e ∈ es2, isServerRFQEv e = false) :
    ∀ n, (run cfg (step cfg w0 (Event.clientQuery sqlB))
      ((es1 ++ Event.clientQuery sqlC :: es2).take n)).session.currentServerConnection =
        some c := by
  obtain ⟨hT, hP⟩ := begin_step cfg w0 sqlB c hmode hpend hB hc
  intro n
  rw [List.take_append_eq_append_take]
  by_cases hn : n ≤ es1.length
  · have h0 : n - es1.length = 0 := by omega
    rw [h0]
    simp only [List.take_zero, List.append_nil]
    exact (runA cfg (es1.take n) _ c hmode hc hT hP
      (fun e hx => hes1 e (List.take_subset _ _ hx))).1
  · have hfull : es1.take n = es1 := List.take_of_length_le (by omega)
    rw [hfull]
    unfold run
    rw [List.foldl_append]
    have hA := runA cfg es1 _ c hmode hc hT hP hes1
    cases hk : n - es1.length with
    | zero => omega
    | succ k =>
      rw [List.take_succ_cons]
      show (run cfg _ (Event.clientQuery sqlC :: es2.take k)).session.currentServerConnection
        = some c
      unfold run
      rw [List.foldl_cons]
      have hcm := commit_step cfg (run cfg (step cfg w0 (Event.clientQuery sqlB)) es1) c
        sqlC hmode hA.1 hC
      exact (runB cfg (es2.take k) _ c hmode hcm.1 hcm.2
        (fun e hx => hes2 e (List.take_subset _ _ hx))).1

def sessionFresh : ClientSession :=
  { sessionId := 0
    database := strBytes "postgres"
    user := strBytes "postgres"
    currentServerConnection := none
    state := SessState.active
    authenticated := true
    pendingRelease := false
    inTransaction := false }

def poolFresh : Pool :=
  { conns := []
    sessionTracked := []
    totalConnections := 0
    maxClientConnections := 10
    nextId := 0
    createSucceeds := true }

def worldFresh : World := { session := sessionFresh, pool := poolFresh }

def traceC2 : List Event :=
  [Event.clientQuery (strBytes "COMMIT"), Event.clientQuery (strBytes "BEGIN"),
   Event.serverData (createReadyForQuery 84), Event.clientQuery (strBytes "COMMIT"),
   Event.serverData (createReadyForQuery 73)]

/-- C2 counterexample: in the concrete transaction-mode trace COMMIT, BEGIN,
ReadyForQuery, COMMIT, ReadyForQuery (the first COMMIT's answer arriving
after the BEGIN), the session issues a BEGIN-classified Query at index 1 and
a COMMIT-classified Query later at index 3, yet the backend held at the
BEGIN (id 0) is released by the intermediate ReadyForQuery at index 2 -
before the ReadyForQuery that follows the later COMMIT - so the backend is
not the same object at every step of the claimed window. -/
theorem claim_C2_counterexample :
    detectTransactionType (strBytes "BEGIN") = some TxnType.tbegin ∧
    detectTransactionType (strBytes "COMMIT") = some TxnType.tcommit ∧
    (run cfgTransaction worldFresh (traceC2.take 2)).session.currentServerConnection =
      some 0 ∧
    isServerRFQEv (Event.serverData (createReadyForQuery 84)) = true ∧
    (run cfgTransaction worldFresh (traceC2.take 3)).session.currentServerConnection =
      none :=
  ⟨rfl, rfl, rfl, rfl, rfl⟩

/-- C2 witness: the amended stability at a concrete trace with an
intermediate ReadyForQuery inside the transaction. -/
theorem claim_C2_amended_witness :
    (run cfgTransaction (step cfgTransaction worldFresh
      (Event.clientQuery (strBytes "BEGIN")))
      (([Event.serverData (createReadyForQuery 84)] ++
        Event.clientQuery (strBytes "ROLLBACK") ::
          [Event.serverData (createCommandComplete (strBytes "ROLLBACK"))]).take
            3)).session.currentServerConnection = some 0 :=
  claim_C2_amended cfgTransaction worldFresh (strBytes "BEGIN") 0
    [Event.serverData (createReadyForQuery 84)] (strBytes "ROLLBACK")
    [Event.serverData (createCommandComplete (strBytes "ROLLBACK"))]
    rfl rfl rfl rfl (by decide) (Or.inr rfl) (by decide) 3

/-- C9 witness: a startup parameter map carrying only `user` (so `database`
is missing while `user` is present) falls back to `postgres` for the
database and behaves as if the map had carried the substituted pair. -/
theorem claim_C9_witness :
    (handleStartup cfgSession (newSession 3) poolOne
        [(strBytes "user", strBytes "alice")]).1.database = strBytes "postgres" ∧
    handleStartup cfgSession (newSession 3) poolOne [(strBytes "user", strBytes "alice")] =
      handleStartup cfgSession (newSession 3) poolOne
        [(strBytes "database",
          jsOrBytes (recLookup [(strBytes "user", strBytes "alice")] (strBytes "database"))
            (strBytes "postgres")),
         (strBytes "user",
          jsOrBytes (recLookup [(strBytes "user", strBytes "alice")] (strBytes "user"))
            (strBytes "postgres"))] :=
  ⟨(claim_C9 cfgSession (newSession 3) poolOne
      [(strBytes "user", strBytes "alice")]).1 (Or.inl (by decide)),
   (claim_C9 cfgSession (newSession 3) poolOne
      [(strBytes "user", strBytes "alice")]).2.2⟩

/-- C10 witness: a well-formed empty-parameter startup frame is recognized,
and with one byte appended it goes to the tagged-frame parser. -/
theorem claim_C10_witness :
    parseClientMessage (createStartupMessage []) =
      Except.ok [parseStartupMessage (createStartupMessage [])] ∧
    ¬ startupCond (createStartupMessage [] ++ [0]) ∧
    parseClientMessage (createStartupMessage [] ++ [0]) =
      parseTagged (createStartupMessage [] ++ [0]) := by
  refine ⟨(claim_C10 (createStartupMessage []) [0]).2.1 (by decide), ?_⟩
  exact (claim_C10 (createStartupMessage []) [0]).2.2.2 (by decide) (by decide) (by decide)

end Pgbun
